import Mathlib

/-!
Verification of the ClimateSet causal-discovery pipeline glue code.

This file gives a shallow embedding, in Lean 4, of the configuration
validation, configuration-file merging, main-program event ordering,
plotting diagnostics, NetCDF conversion paths and the penalty scheduler
of the repository, and proves (or refutes) the specified properties.

Numeric values that the source handles as Python ints/floats are
embedded as ℤ/ℚ; fallible code is embedded as `Except`; the effectful
parts of `main`, `plot` and the converters are embedded as explicit
event/effect traces.
-/

namespace ClimateSet

/-! ## Configuration surface and validation (src/causal/main.py) -/

/-- The hyperparameters consulted by `assert_args` and by the ordering
of `main` (src/causal/main.py).  Only the fields those code paths read
are embedded. -/
structure Args where
  no_gt : Bool
  debug_gt_graph : Bool
  debug_gt_z : Bool
  debug_gt_w : Bool
  latent : Bool
  d_z : Option ℤ
  d_x : Option ℤ
  ratio_train : ℚ
  ratio_valid : ℚ
  data_format : String
  optimizer : String

/-- One constructor per `raise ValueError` site in `assert_args`
(src/causal/main.py lines 146-165). -/
inductive ConfigError where
  | debugGtWithNoGt
  | latentMissingDims
  | ratioSum
  | badDataFormat
  | badOptimizer
deriving DecidableEq

/-- Condition of the first raise in `assert_args` (line 146):
`args.no_gt and (args.debug_gt_graph or args.debug_gt_z or args.debug_gt_w)`. -/
def gtViolation (a : Args) : Bool :=
  a.no_gt && (a.debug_gt_graph || a.debug_gt_z || a.debug_gt_w)

/-- `args.d_z is None or args.d_x is None or args.d_z <= 0 or args.d_x <= 0`
(line 149), with Python's short-circuit evaluation made explicit. -/
def latentDimsBad (a : Args) : Bool :=
  match a.d_z, a.d_x with
  | none, _ => true
  | some _, none => true
  | some z, some x => decide (z ≤ 0) || decide (x ≤ 0)

/-- Condition of the second raise in `assert_args` (line 149). -/
def latentViolation (a : Args) : Bool := a.latent && latentDimsBad a

/-- Lines 152-153: `if args.ratio_valid == 0: args.ratio_valid = 1 - args.ratio_train`. -/
def deriveRatioValid (a : Args) : Args :=
  if a.ratio_valid = 0 then { a with ratio_valid := 1 - a.ratio_train } else a

/-- Condition of the third raise (line 154): `args.ratio_train + args.ratio_valid > 1`. -/
def ratioViolation (a : Args) : Bool := decide (a.ratio_train + a.ratio_valid > 1)

/-- Condition of the fourth raise (line 159): `args.data_format not in ["numpy", "hdf5"]`. -/
def formatViolation (a : Args) : Bool := !(["numpy", "hdf5"].contains a.data_format)

/-- Condition of the fifth raise (line 163): `args.optimizer not in ["sgd", "rmsprop"]`. -/
def optimViolation (a : Args) : Bool := !(["sgd", "rmsprop"].contains a.optimizer)

/-- `assert_args` (src/causal/main.py lines 140-173): the raises happen in
program order; the ratio derivation (lines 152-153) mutates `args` before the
ratio-sum check, and the mutated `args` is what the function returns.  The
`warnings.warn` calls do not raise and are not error outcomes. -/
def assert_args (a : Args) : Except ConfigError Args :=
  if gtViolation a then .error .debugGtWithNoGt
  else if latentViolation a then .error .latentMissingDims
  else if ratioViolation (deriveRatioValid a) then .error .ratioSum
  else if formatViolation (deriveRatioValid a) then .error .badDataFormat
  else if optimViolation (deriveRatioValid a) then .error .badOptimizer
  else .ok (deriveRatioValid a)

/-- The disjunction of invalid combinations named by the claim, evaluated on a
single configuration record. -/
def badCombo (a : Args) : Prop :=
  gtViolation a = true ∨ latentViolation a = true ∨ ratioViolation a = true ∨
    formatViolation a = true ∨ optimViolation a = true

/-- Observable steps of `__main__`/`main` (src/causal/main.py), in source
order: seeding (lines 38-39), default tensor type (42-51), experiment folder
(54-56), `DataLoader` construction (59-67), model construction (77-109),
saving `params.json` (115-116), `train_with_QPM` (119-123), and the
ground-truth results block (126-137) ending in `results.json`. -/
inductive Event where
  | seedTorch
  | seedNumpy
  | setDefaultTensorType
  | mkdirExpPath
  | dataLoaderInit
  | modelInit (latent : Bool)
  | saveParams
  | trainQPM
  | debuggerBreak
  | computeMetrics
  | writeResults
  | configError
deriving DecidableEq

/-- The event trace of `main(hp)` (src/causal/main.py lines 33-137).  The
tail is conditional on `no_gt` exactly as the `if not hp.no_gt:` block is;
the `ipdb.set_trace()` on line 127 is kept as an explicit event. -/
def mainTrace (a : Args) : List Event :=
  [Event.seedTorch, Event.seedNumpy, Event.setDefaultTensorType, Event.mkdirExpPath,
   Event.dataLoaderInit, Event.modelInit a.latent, Event.saveParams, Event.trainQPM] ++
  (if a.no_gt then [] else [Event.debuggerBreak, Event.computeMetrics, Event.writeResults])

/-- The event trace of `__main__` after argument merging (lines 311-313):
`assert_args` runs first and a raise aborts the run before `main` starts. -/
def runProgram (a : Args) : List Event :=
  match assert_args a with
  | .error _ => [Event.configError]
  | .ok a2 => mainTrace a2

/-- Every occurrence of `e₁` in the trace is strictly before every
occurrence of `e₂`. -/
def allBefore (e₁ e₂ : Event) (tr : List Event) : Prop :=
  ∀ i j : Fin tr.length, tr.get i = e₁ → tr.get j = e₂ → (i : ℕ) < (j : ℕ)

instance (e₁ e₂ : Event) (tr : List Event) : Decidable (allBefore e₁ e₂ tr) := by
  unfold allBefore; infer_instance

/-! ## Configuration-file merging (src/causal/main.py lines 285-295) -/

/-- Python values stored in the parsed argument namespace and in the
configuration file. -/
inductive PyVal where
  | pynone
  | pybool (b : Bool)
  | pyint (n : ℤ)
  | pyfloat (q : ℚ)
  | pystr (s : String)
deriving DecidableEq

/-- Python truthiness of a `PyVal` (`bool(v)`). -/
def truthy : PyVal → Bool
  | .pynone => false
  | .pybool b => b
  | .pyint n => decide (n ≠ 0)
  | .pyfloat q => decide (q ≠ 0)
  | .pystr s => decide (s ≠ "")

/-- One iteration of the merge loop (lines 292-294):
`if default_params[key] is None or not default_params[key]: default_params[key] = val`.
`is None or not _` is exactly non-truthiness, since `None` is falsy. -/
def mergeStep (acc : String → PyVal) (kv : String × PyVal) : String → PyVal :=
  if truthy (acc kv.1) then acc else Function.update acc kv.1 kv.2

/-- The whole merge loop `for key, val in params.items(): ...` over the
configuration-file entries, in file order. -/
def mergeParams (args : String → PyVal) (params : List (String × PyVal)) :
    String → PyVal :=
  params.foldl mergeStep args

/-! ## Model input size (src/causal/main.py lines 72-75) -/

/-- `num_input` as computed in `main`:
`d * (hp.tau + 1) * (hp.tau_neigh * 2 + 1)` when instantaneous, else
`d * hp.tau * (hp.tau_neigh * 2 + 1)`. -/
def num_input (instantaneous : Bool) (d tau tau_neigh : ℕ) : ℕ :=
  if instantaneous then d * (tau + 1) * (tau_neigh * 2 + 1)
  else d * tau * (tau_neigh * 2 + 1)

/-! ## Plot utilities (src/causal/plot.py) -/

/-- `np.cumsum(a)`: entry `j` is the sum of the first `j + 1` entries of `a`. -/
def cumsum (a : List ℚ) : List ℚ :=
  (List.range a.length).map (fun j => (a.take (j + 1)).sum)

/-- `moving_average` (src/causal/plot.py lines 8-12):
`ret = np.cumsum(a); ret[n:] = ret[n:] - ret[:-n]; return ret[n - 1:] / n`.
The slice assignment replaces `ret[j]` by `ret[j] - ret[j - n]` for `j ≥ n`,
with the right-hand side read from the original array. -/
def moving_average (a : List ℚ) (n : ℕ) : List ℚ :=
  (((List.range (cumsum a).length).map
      (fun j => if j < n then (cumsum a).getD j 0
        else (cumsum a).getD j 0 - (cumsum a).getD (j - n) 0)).drop (n - 1)).map
    (fun x => x / (n : ℚ))

/-- The training state of a learner as read by `plot` (src/causal/plot.py
lines 15-42): model parameters, constraint coefficients, loss histories,
iteration counter, the latent flag, and the trailing dimensions
`(d, d_x, k)` of `adj_w_tt`. -/
structure Learner where
  params : List ℚ
  mu_acyclic : ℚ
  mu_ortho : ℚ
  train_loss_list : List ℚ
  valid_loss_list : List ℚ
  iteration : ℕ
  latent : Bool
  adj_w_tt_dims : ℕ × ℕ × ℕ

/-- Side effects of the plotting code: writing an image file, or hitting
the `ipdb.set_trace()` breakpoint. -/
inductive PlotEffect where
  | writeImage (name : String)
  | debuggerBreak
deriving DecidableEq

/-- Effects of `plot_adjacency_through_time_w` (src/causal/plot.py lines
198-221): the triple loop over `(d, d_x, k_)` plots one line and then hits
`ipdb.set_trace()` (line 218) on every pass, and the figure is saved at
the end. -/
def plot_adjacency_through_time_w_effects (dims : ℕ × ℕ × ℕ) : List PlotEffect :=
  (List.replicate (dims.1 * dims.2.1 * dims.2.2) PlotEffect.debuggerBreak) ++
    [PlotEffect.writeImage "adjacency_time_w.png"]

/-- Effects of `plot(learner)` (src/causal/plot.py lines 15-42):
learning curves, transition adjacency, transition adjacency through time,
and — only when `learner.latent` — the `w` plots. -/
def plotEffects (l : Learner) : List PlotEffect :=
  [PlotEffect.writeImage "loss.png",
   PlotEffect.writeImage "adjacency_transition.png",
   PlotEffect.writeImage "adjacency_time_transition.png"] ++
  (if l.latent then
    PlotEffect.writeImage "adjacency_w.png" ::
      plot_adjacency_through_time_w_effects l.adj_w_tt_dims
  else [])

/-- `plot(learner)`: the learner is only read (no attribute of the learner
is ever assigned in src/causal/plot.py), and the effects are as recorded. -/
def plot (l : Learner) : Learner × List PlotEffect := (l, plotEffects l)

/-! ## NetCDF conversion
(src/causal/data_generation/convert_ncep_data/convert_netcdf_files.py) -/

/-- The accepted values of the `frequency` argument (lines 28-35). -/
inductive Freq where
  | day
  | week
  | month
deriving DecidableEq

/-- One output row of `convert_netcdf_to_pandas`: columns
`timestamp, lat, lon, feature value` (lines 37-42; a single feature column
is embedded). -/
structure NRow where
  time : ℤ
  lat : ℚ
  lon : ℚ
  value : ℚ
deriving DecidableEq

/-- One source NetCDF file: its observation rows and its key-value
attributes `ds.attrs`. -/
structure NcFile where
  rows : List NRow
  attrs : List (String × String)

/-- The grouping key period for a timestamp, standing in for the
`pd.Grouper(key='time', freq=...)` buckets of lines 31-33 (calendar
weeks/months are embedded as fixed 7- and 30-day buckets; only
`day ≠ week/month` aggregation behaviour matters below). -/
def periodOf : Freq → ℤ → ℤ
  | .day, t => t
  | .week, t => t / 7
  | .month, t => t / 30

/-- The `groupby` key `(period, lat, lon)` of a row. -/
def keyOf (freq : Freq) (r : NRow) : ℤ × ℚ × ℚ := (periodOf freq r.time, r.lat, r.lon)

/-- The distinct group keys, in order of first appearance. -/
def uniqueKeys (l : List (ℤ × ℚ × ℚ)) : List (ℤ × ℚ × ℚ) :=
  l.foldl (fun acc k => if k ∈ acc then acc else acc ++ [k]) []

/-- `df.groupby([pd.Grouper(...), "lat", "lon"])[features].mean()`
(lines 31-33): one output row per group, carrying the mean feature value. -/
def groupMean (freq : Freq) (rows : List NRow) : List NRow :=
  (uniqueKeys (rows.map (keyOf freq))).map (fun k =>
    let vals := (rows.filter (fun r => decide (keyOf freq r = k))).map NRow.value
    { time := k.1, lat := k.2.1, lon := k.2.2, value := vals.sum / (vals.length : ℚ) })

/-- `convert_netcdf_to_pandas` (lines 13-45): for `frequency == "day"` the
rows pass through unchanged (`pass`), otherwise they are group-averaged;
the file attributes `ds.attrs` are returned alongside. -/
def convert_netcdf_to_pandas (file : NcFile) (freq : Freq) :
    List NRow × List (String × String) :=
  match freq with
  | .day => (file.rows, file.attrs)
  | f => (groupMean f file.rows, file.attrs)

/-- `main_numpy` (lines 57-98): converts every file at the requested
`frequency`, concatenates the rows in file order, and saves the metadata
of the last file opened (the `metadata` variable is overwritten on every
loop iteration and dumped after the loop). -/
def main_numpy (files : List NcFile) (freq : Freq) :
    List NRow × Option (List (String × String)) :=
  ((files.map (fun f => (convert_netcdf_to_pandas f freq).1)).flatten,
   (files.map NcFile.attrs).getLast?)

/-- `main_hdf5` (lines 101-159): the call on line 121 omits the
`frequency` argument, so every file is converted at the default
`frequency="day"`; rows are appended in file order and the metadata of
the first file is saved (inside the `i == 0` branch). -/
def main_hdf5 (files : List NcFile) (_freq : Freq) :
    List NRow × Option (List (String × String)) :=
  ((files.map (fun f => (convert_netcdf_to_pandas f Freq.day).1)).flatten,
   (files.map NcFile.attrs).head?)

/-! ## Penalty scheduler (spec-modelled)

The file implementing `train_with_QPM` and the constraint update
(`src/causal/train.py` in the repository) is not among the provided
sources, so the scheduler is modelled from the specification, §4.2. -/

/-- Modelled from the spec: the per-constraint thresholds and factors of
§4.2 / §6 (`mu_init`, `mu_mult_factor`, `omega_gamma`, `omega_mu`,
`h_threshold`, `min_iter_convergence`), for the missing
`src/causal/train.py`. -/
structure SchedCfg where
  mu_init : ℚ
  mu_mult_factor : ℚ
  omega_gamma : ℚ
  omega_mu : ℚ
  h_threshold : ℚ
  min_iter_convergence : ℕ

/-- Modelled from the spec: the mutable per-constraint state of §3
("Constraint"): penalty coefficient `mu`, the violation value recorded at
the last tightening (`h_ref`), the iteration counter since the last
tightening, and the sufficient-decrease diagnostic flag, for the missing
`src/causal/train.py`. -/
structure SchedState where
  mu : ℚ
  h_ref : ℚ
  iters : ℕ
  suff_decrease : Bool

/-- Modelled from the spec: "declare converged when the relative change of
`h` over the recent window falls below `omega_gamma`" (§4.2), read as
`|h_cur - h_prev| < omega_gamma * |h_prev|`, for the missing
`src/causal/train.py`. -/
def relChangeBelow (omega_gamma h_prev h_cur : ℚ) : Bool :=
  decide (|h_cur - h_prev| < omega_gamma * |h_prev|)

/-- Modelled from the spec: one scheduler update (§4.2), for the missing
`src/causal/train.py`.  The convergence check is only evaluated after
`min_iter_convergence` iterations since the last tightening; on
convergence `mu` is multiplied by `mu_mult_factor` whether or not `h`
decreased by factor `omega_mu` (the `omega_mu` comparison only sets the
diagnostic flag), the iteration counter is reset and `h` is recorded as
the new reference value. -/
def schedStep (cfg : SchedCfg) (s : SchedState) (h_prev h_cur : ℚ) : SchedState :=
  if cfg.min_iter_convergence ≤ s.iters + 1 ∧
      relChangeBelow cfg.omega_gamma h_prev h_cur = true then
    { mu := s.mu * cfg.mu_mult_factor
      h_ref := h_cur
      iters := 0
      suff_decrease := decide (h_cur ≤ cfg.omega_mu * s.h_ref) }
  else
    { s with iters := s.iters + 1 }

/-- Modelled from the spec: running the scheduler over a sequence of
violation values, threading the previous value for the relative-change
test, for the missing `src/causal/train.py`. -/
def schedRun (cfg : SchedCfg) (s : SchedState) (h_prev : ℚ) : List ℚ → SchedState
  | [] => s
  | h :: rest => schedRun cfg (schedStep cfg s h_prev h) h rest

/-- The violation value seen just before position `j` of the sequence
(`h0` before position 0). -/
def prevOf (h0 : ℚ) (hs : List ℚ) (j : ℕ) : ℚ :=
  if j = 0 then h0 else hs.getD (j - 1) 0

/-- The omega_gamma convergence criterion holds at position `j`, with the
iteration counter (started at 0) having reached `min_iter`. -/
def critAt (omega_gamma : ℚ) (min_iter : ℕ) (h0 : ℚ) (hs : List ℚ) (j : ℕ) : Prop :=
  min_iter ≤ j + 1 ∧ relChangeBelow omega_gamma (prevOf h0 hs j) (hs.getD j 0) = true

/-! ## Concrete inputs used by witnesses and counterexamples -/

/-- A configuration violating the first check of `assert_args`
(`no_gt` together with `debug_gt_w`). -/
def cBadArgs : Args :=
  { no_gt := true, debug_gt_graph := false, debug_gt_z := false, debug_gt_w := true,
    latent := false, d_z := none, d_x := none, ratio_train := 1, ratio_valid := 0,
    data_format := "numpy", optimizer := "sgd" }

/-- A valid configuration with `ratio_valid` unset (0). -/
def cRatioArgs : Args :=
  { no_gt := true, debug_gt_graph := false, debug_gt_z := false, debug_gt_w := false,
    latent := false, d_z := none, d_x := none, ratio_train := 1/2, ratio_valid := 0,
    data_format := "numpy", optimizer := "sgd" }

/-- A configuration with ground truth available (`no_gt = false`). -/
def cGtArgs : Args :=
  { no_gt := false, debug_gt_graph := false, debug_gt_z := false, debug_gt_w := false,
    latent := false, d_z := none, d_x := none, ratio_train := 1/2, ratio_valid := 0,
    data_format := "numpy", optimizer := "sgd" }

/-- A parsed argument namespace in which the user explicitly supplied the
value `0` for `ratio_train` (argparse stores the int `0`, which is falsy). -/
def cUserArgs : String → PyVal :=
  fun k => if k = "ratio_train" then PyVal.pyint 0 else PyVal.pynone

/-- A configuration file supplying `ratio_train = 1`. -/
def cFileParams : List (String × PyVal) := [("ratio_train", PyVal.pyint 1)]

/-- A parsed argument namespace with a truthy explicit value for `tau`. -/
def cUserArgsTruthy : String → PyVal :=
  fun k => if k = "tau" then PyVal.pyint 3 else PyVal.pynone

/-- A latent learner whose `adj_w_tt` has one edge per time slice, so the
plotting loop body runs. -/
def cLatentLearner : Learner :=
  { params := [], mu_acyclic := 1, mu_ortho := 1, train_loss_list := [],
    valid_loss_list := [], iteration := 100, latent := true, adj_w_tt_dims := (1, 1, 1) }

/-- A source file with two same-cell observations one day apart (the same
7- and 30-day bucket), with feature values 0 and 2. -/
def cNcFile : NcFile :=
  { rows := [{ time := 0, lat := 0, lon := 0, value := 0 },
             { time := 1, lat := 0, lon := 0, value := 2 }],
    attrs := [("title", "NCEP Reanalysis")] }

/-- A scheduler configuration with `min_iter_convergence = 2`,
`omega_gamma = 1/4` and `mu_mult_factor = 2`. -/
def cSchedCfg : SchedCfg :=
  { mu_init := 1, mu_mult_factor := 2, omega_gamma := 1/4, omega_mu := 9/10,
    h_threshold := 1/100, min_iter_convergence := 2 }

/-- The scheduler state at the start of a sub-problem. -/
def cSchedState : SchedState :=
  { mu := 1, h_ref := 8, iters := 0, suff_decrease := false }

/-- A strictly decreasing violation sequence (after `h0 = 8`) whose
relative change first falls below `omega_gamma = 1/4` at position 1. -/
def cHs : List ℚ := [4, 39/10]

/-- A configuration with the given `no_gt` and `latent` flags and fixed
values everywhere else; `mainTrace` reads only those two flags, so its
trace on any configuration coincides with its trace here. -/
def flagArgs (b l : Bool) : Args :=
  { no_gt := b, debug_gt_graph := false, debug_gt_z := false, debug_gt_w := false,
    latent := l, d_z := none, d_x := none, ratio_train := 0, ratio_valid := 0,
    data_format := "numpy", optimizer := "sgd" }

/-! ## Theorems -/

/-! ### C9: model input size -/

/-- Claim C9: the number of input features per training window equals
`d * (tau + 1) * (2 * tau_neigh + 1)` when instantaneous connections are
enabled, and `d * tau * (2 * tau_neigh + 1)` otherwise. -/
theorem C9_num_input_formula (d tau tau_neigh : ℕ) :
    num_input true d tau tau_neigh = d * (tau + 1) * (2 * tau_neigh + 1) ∧
    num_input false d tau tau_neigh = d * tau * (2 * tau_neigh + 1) := by
  constructor
  · show d * (tau + 1) * (tau_neigh * 2 + 1) = d * (tau + 1) * (2 * tau_neigh + 1)
    ring
  · show d * tau * (tau_neigh * 2 + 1) = d * tau * (2 * tau_neigh + 1)
    ring

/-! ### C2: configuration precedence -/

/-- Claim C2 is false as stated: it is not the case that every explicitly
supplied value survives the merge.  For the explicitly supplied falsy value
`0` for `ratio_train`, the configuration-file value replaces it, because the
merge condition is `is None or not default_params[key]`. -/
theorem C2_counterexample :
    ¬ (∀ (args : String → PyVal) (params : List (String × PyVal)) (k : String)
        (v : PyVal), (k, v) ∈ params → args k ≠ PyVal.pynone →
        mergeParams args params k = args k) := by
  intro h
  have h1 := h cUserArgs cFileParams "ratio_train" (PyVal.pyint 1)
    (by simp [cFileParams]) (by decide)
  exact absurd h1 (by decide)

/-- Claim C2 (amended): an explicitly supplied value is the one used for
the run only when it is truthy (non-`None` and non-falsy); a `None` or
falsy explicit value is replaced by the configuration-file value. -/
theorem C2_truthy_values_survive_merge (args : String → PyVal)
    (params : List (String × PyVal)) (k : String)
    (h : truthy (args k) = true) : mergeParams args params k = args k := by
  induction params generalizing args with
  | nil => rfl
  | cons p ps ih =>
      have hstep : mergeStep args p k = args k := by
        unfold mergeStep
        split
        · rfl
        · rename_i hf
          rcases eq_or_ne p.1 k with hk | hk
          · rw [hk] at hf; exact absurd h hf
          · exact Function.update_noteq (Ne.symm hk) _ _
      have h2 : truthy (mergeStep args p k) = true := by rw [hstep]; exact h
      calc mergeParams args (p :: ps) k = mergeParams (mergeStep args p) ps k := rfl
        _ = mergeStep args p k := ih _ h2
        _ = args k := hstep

/-- Witness for the amended C2 theorem at a concrete namespace and file. -/
theorem C2_truthy_values_survive_merge_witness :
    truthy (cUserArgsTruthy "tau") = true ∧
    mergeParams cUserArgsTruthy cFileParams "tau" = cUserArgsTruthy "tau" :=
  ⟨by decide, C2_truthy_values_survive_merge cUserArgsTruthy cFileParams "tau" (by decide)⟩

/-! ### C1 and C3: startup validation -/

theorem gtViolation_derive (a : Args) :
    gtViolation (deriveRatioValid a) = gtViolation a := by
  unfold deriveRatioValid; split <;> rfl

theorem latentViolation_derive (a : Args) :
    latentViolation (deriveRatioValid a) = latentViolation a := by
  unfold deriveRatioValid; split <;> rfl

theorem formatViolation_derive (a : Args) :
    formatViolation (deriveRatioValid a) = formatViolation a := by
  unfold deriveRatioValid; split <;> rfl

theorem optimViolation_derive (a : Args) :
    optimViolation (deriveRatioValid a) = optimViolation a := by
  unfold deriveRatioValid; split <;> rfl

/-- Claim C1: `assert_args` raises if and only if, after the derived
`ratio_valid` is filled in, one of the five invalid combinations holds; and
when it raises, the `DataLoader` is never constructed (the error aborts the
run before `main`). -/
theorem C1_assert_args_complete (a : Args) :
    ((∃ e, assert_args a = Except.error e) ↔ badCombo (deriveRatioValid a)) ∧
    (∀ e, assert_args a = Except.error e →
      Event.dataLoaderInit ∉ runProgram a) := by
  constructor
  · unfold assert_args badCombo
    rw [gtViolation_derive, latentViolation_derive, formatViolation_derive,
      optimViolation_derive]
    split_ifs with h1 h2 h3 h4 h5 <;> simp_all
  · intro e he
    simp [runProgram, he]

/-- Witness for C1 at a configuration violating the debug-flag check. -/
theorem C1_assert_args_complete_witness :
    badCombo (deriveRatioValid cBadArgs) ∧
    Event.dataLoaderInit ∉ runProgram cBadArgs :=
  ⟨(C1_assert_args_complete cBadArgs).1.mp ⟨ConfigError.debugGtWithNoGt, rfl⟩,
   (C1_assert_args_complete cBadArgs).2 ConfigError.debugGtWithNoGt rfl⟩

/-- Claim C3: when `ratio_valid` is unset (0), validation sets it to
exactly `1 - ratio_train` before the sum check, and (given
`ratio_train ≤ 1`) the derived configuration never trips the ratio-sum
error. -/
theorem C3_derived_ratio (a : Args) (h0 : a.ratio_valid = 0)
    (_h1 : a.ratio_train ≤ 1) :
    (deriveRatioValid a).ratio_valid = 1 - a.ratio_train ∧
    ratioViolation (deriveRatioValid a) = false ∧
    assert_args a ≠ Except.error ConfigError.ratioSum := by
  have hd : deriveRatioValid a = { a with ratio_valid := 1 - a.ratio_train } := by
    unfold deriveRatioValid; rw [if_pos h0]
  have hr : ratioViolation (deriveRatioValid a) = false := by
    rw [hd]
    unfold ratioViolation
    rw [decide_eq_false_iff_not]
    intro hgt
    have hsum : a.ratio_train + (1 - a.ratio_train) = 1 := by ring
    rw [show ({ a with ratio_valid := 1 - a.ratio_train } : Args).ratio_train
        = a.ratio_train from rfl,
      show ({ a with ratio_valid := 1 - a.ratio_train } : Args).ratio_valid
        = 1 - a.ratio_train from rfl, hsum] at hgt
    exact lt_irrefl 1 hgt
  refine ⟨by rw [hd], hr, ?_⟩
  unfold assert_args
  split_ifs with g1 g2 g3 g4 g5 <;> simp_all

/-- Witness for C3 at a configuration with `ratio_train = 1/2` and unset
`ratio_valid`. -/
theorem C3_derived_ratio_witness :
    cRatioArgs.ratio_valid = 0 ∧ cRatioArgs.ratio_train ≤ 1 ∧
    ((deriveRatioValid cRatioArgs).ratio_valid = 1 - cRatioArgs.ratio_train ∧
      ratioViolation (deriveRatioValid cRatioArgs) = false ∧
      assert_args cRatioArgs ≠ Except.error ConfigError.ratioSum) :=
  ⟨rfl, by norm_num [cRatioArgs],
   C3_derived_ratio cRatioArgs rfl (by norm_num [cRatioArgs])⟩

/-! ### C6: seeding order, and C4: results persistence -/

/-- Claim C6: the torch and numpy seeds are each set exactly once per run,
and every seeding event strictly precedes the `DataLoader` construction and
the model-parameter initialization. -/
theorem C6_seeding_order (a : Args) :
    (mainTrace a).count Event.seedTorch = 1 ∧
    (mainTrace a).count Event.seedNumpy = 1 ∧
    allBefore Event.seedTorch Event.dataLoaderInit (mainTrace a) ∧
    allBefore Event.seedNumpy Event.dataLoaderInit (mainTrace a) ∧
    allBefore Event.seedTorch (Event.modelInit a.latent) (mainTrace a) ∧
    allBefore Event.seedNumpy (Event.modelInit a.latent) (mainTrace a) := by
  have key : ∀ b l : Bool,
      (mainTrace (flagArgs b l)).count Event.seedTorch = 1 ∧
      (mainTrace (flagArgs b l)).count Event.seedNumpy = 1 ∧
      allBefore Event.seedTorch Event.dataLoaderInit (mainTrace (flagArgs b l)) ∧
      allBefore Event.seedNumpy Event.dataLoaderInit (mainTrace (flagArgs b l)) ∧
      allBefore Event.seedTorch (Event.modelInit (flagArgs b l).latent)
        (mainTrace (flagArgs b l)) ∧
      allBefore Event.seedNumpy (Event.modelInit (flagArgs b l).latent)
        (mainTrace (flagArgs b l)) := by decide
  exact key a.no_gt a.latent

/-- Claim C4: with ground truth available (`no_gt = false`) the run
computes the metrics and writes the results record, after training and
after the configuration was saved (which itself happens before training);
with `no_gt = true` no metrics are computed and no results record is
written. -/
theorem C4_results_persisted (a : Args) :
    (a.no_gt = false →
      Event.computeMetrics ∈ mainTrace a ∧
      Event.writeResults ∈ mainTrace a ∧
      allBefore Event.saveParams Event.trainQPM (mainTrace a) ∧
      allBefore Event.trainQPM Event.computeMetrics (mainTrace a) ∧
      allBefore Event.computeMetrics Event.writeResults (mainTrace a)) ∧
    (a.no_gt = true →
      Event.computeMetrics ∉ mainTrace a ∧ Event.writeResults ∉ mainTrace a) := by
  have key : ∀ b l : Bool,
      (b = false →
        Event.computeMetrics ∈ mainTrace (flagArgs b l) ∧
        Event.writeResults ∈ mainTrace (flagArgs b l) ∧
        allBefore Event.saveParams Event.trainQPM (mainTrace (flagArgs b l)) ∧
        allBefore Event.trainQPM Event.computeMetrics (mainTrace (flagArgs b l)) ∧
        allBefore Event.computeMetrics Event.writeResults (mainTrace (flagArgs b l))) ∧
      (b = true →
        Event.computeMetrics ∉ mainTrace (flagArgs b l) ∧
        Event.writeResults ∉ mainTrace (flagArgs b l)) := by decide
  exact key a.no_gt a.latent

/-- Witness for C4 at a concrete configuration with ground truth. -/
theorem C4_results_persisted_witness :
    Event.computeMetrics ∈ mainTrace cGtArgs ∧
    Event.writeResults ∈ mainTrace cGtArgs :=
  ⟨((C4_results_persisted cGtArgs).1 rfl).1,
   ((C4_results_persisted cGtArgs).1 rfl).2.1⟩

/-! ### C7: plotting diagnostics -/

/-- Claim C7 is broken by the code: `plot` does leave the learner's state
unchanged, but on a latent learner its effects are not limited to writing
image files — the `ipdb.set_trace()` breakpoint on line 218 of
src/causal/plot.py fires inside the plotting loop. -/
theorem C7_plot_state_and_breakpoint :
    (plot cLatentLearner).1 = cLatentLearner ∧
    PlotEffect.debuggerBreak ∈ (plot cLatentLearner).2 ∧
    ∃ e, e ∈ (plot cLatentLearner).2 ∧ ∀ s, e ≠ PlotEffect.writeImage s :=
  ⟨rfl, by decide,
   ⟨PlotEffect.debuggerBreak, by decide, fun s h => PlotEffect.noConfusion h⟩⟩

/-! ### C10: moving_average -/

theorem cumsum_length (a : List ℚ) : (cumsum a).length = a.length := by
  simp [cumsum]

theorem cumsum_getD (a : List ℚ) (j : ℕ) (h : j < a.length) :
    (cumsum a).getD j 0 = (a.take (j + 1)).sum := by
  unfold cumsum
  rw [List.getD_eq_getElem _ _ (by simpa using h)]
  simp

theorem sum_take_sub (a : List ℚ) (i n : ℕ) :
    (a.take (i + n)).sum - (a.take i).sum = ((a.drop i).take n).sum := by
  rw [List.take_add, List.sum_append]; ring

/-- Claim C10: for `1 ≤ n ≤ L`, `moving_average a n` has length
`L - n + 1` and its entry `i` is the arithmetic mean of
`a[i], ..., a[i + n - 1]`. -/
theorem C10_moving_average (a : List ℚ) (n : ℕ) (h1 : 1 ≤ n) (h2 : n ≤ a.length) :
    (moving_average a n).length = a.length - n + 1 ∧
    ∀ i, i < a.length - n + 1 →
      (moving_average a n).getD i 0 = ((a.drop i).take n).sum / (n : ℚ) := by
  have hlen : (moving_average a n).length = a.length - n + 1 := by
    unfold moving_average
    rw [List.length_map, List.length_drop, List.length_map, List.length_range,
      cumsum_length]
    omega
  refine ⟨hlen, ?_⟩
  intro i hi
  have hbound : i < (moving_average a n).length := by rw [hlen]; exact hi
  rw [List.getD_eq_getElem _ _ hbound]
  unfold moving_average
  rw [List.getElem_map, List.getElem_drop, List.getElem_map, List.getElem_range]
  rcases Nat.eq_zero_or_pos i with hi0 | hipos
  · subst hi0
    rw [Nat.add_zero, if_pos (by omega : n - 1 < n),
      cumsum_getD a (n - 1) (by omega),
      (by omega : n - 1 + 1 = n), List.drop_zero]
  · rw [if_neg (by omega : ¬ n - 1 + i < n),
      cumsum_getD a (n - 1 + i) (by omega),
      cumsum_getD a (n - 1 + i - n) (by omega),
      (by omega : n - 1 + i + 1 = i + n),
      (by omega : n - 1 + i - n + 1 = i),
      sum_take_sub]

/-- Witness for C10 at `a = [1, 2, 3]`, `n = 2`. -/
theorem C10_moving_average_witness :
    1 ≤ 2 ∧ 2 ≤ ([1, 2, 3] : List ℚ).length ∧
    ((moving_average [1, 2, 3] 2).length = ([1, 2, 3] : List ℚ).length - 2 + 1 ∧
      ∀ i, i < ([1, 2, 3] : List ℚ).length - 2 + 1 →
        (moving_average [1, 2, 3] 2).getD i 0 =
          ((([1, 2, 3] : List ℚ).drop i).take 2).sum / (2 : ℚ)) :=
  ⟨by norm_num, by decide, C10_moving_average [1, 2, 3] 2 (by norm_num) (by decide)⟩

/-! ### C8: the two conversion paths -/

/-- Claim C8 is broken by the code: `main_hdf5` drops the `frequency`
argument (line 121 calls `convert_netcdf_to_pandas` without it), so for
monthly averaging the numpy path writes the group means while the hdf5
path writes the raw daily rows — different rows for the same input. -/
theorem C8_frequency_divergence :
    (main_numpy [cNcFile] Freq.month).1 =
      [{ time := 0, lat := 0, lon := 0, value := 1 }] ∧
    (main_hdf5 [cNcFile] Freq.month).1 = cNcFile.rows ∧
    (main_numpy [cNcFile] Freq.month).1 ≠ (main_hdf5 [cNcFile] Freq.month).1 := by
  have hz : (0 : ℤ) / 30 = 0 := by decide
  have ho : (1 : ℤ) / 30 = 0 := by decide
  have e1 : (main_numpy [cNcFile] Freq.month).1 =
      [{ time := 0, lat := 0, lon := 0, value := 1 }] := by
    show groupMean Freq.month cNcFile.rows ++ [] = _
    norm_num [groupMean, uniqueKeys, keyOf, periodOf, cNcFile, hz, ho, NRow.mk.injEq]
  have e2 : (main_hdf5 [cNcFile] Freq.month).1 = cNcFile.rows := by
    show cNcFile.rows ++ [] = _
    simp
  refine ⟨e1, e2, ?_⟩
  rw [e1, e2]
  decide

/-! ### C5: penalty-scheduler tightening -/

theorem prevOf_cons (h0 h : ℚ) (t : List ℚ) (j : ℕ) :
    prevOf h0 (h :: t) (j + 1) = prevOf h t j := by
  unfold prevOf
  rcases j with _ | j
  · norm_num
  · norm_num [List.getD_cons_succ]

theorem getD_take_eq (hs : List ℚ) (j i : ℕ) (h : i < j) (h2 : i < hs.length) :
    (hs.take j).getD i 0 = hs.getD i 0 := by
  rw [List.getD_eq_getElem _ _ (by rw [List.length_take]; omega),
    List.getD_eq_getElem _ _ h2]
  exact List.getElem_take _

theorem prevOf_take_eq (h0 : ℚ) (hs : List ℚ) (j i : ℕ) (h : i < j)
    (h2 : i < hs.length) :
    prevOf h0 (hs.take j) i = prevOf h0 hs i := by
  unfold prevOf
  rcases i with _ | i
  · rfl
  · rw [if_neg (Nat.succ_ne_zero i), if_neg (Nat.succ_ne_zero i)]
    exact getD_take_eq hs j i (by omega) (by omega)

theorem schedRun_no_crit (cfg : SchedCfg) (s : SchedState) (h0 : ℚ) (hs : List ℚ)
    (h : ∀ j, j < hs.length →
      ¬ (cfg.min_iter_convergence ≤ s.iters + j + 1 ∧
         relChangeBelow cfg.omega_gamma (prevOf h0 hs j) (hs.getD j 0) = true)) :
    schedRun cfg s h0 hs = { s with iters := s.iters + hs.length } := by
  induction hs generalizing s h0 with
  | nil => simp [schedRun]
  | cons hd tl ih =>
      have h00 := h 0 (by simp)
      have hstep : schedStep cfg s h0 hd = { s with iters := s.iters + 1 } := by
        unfold schedStep
        rw [if_neg]
        intro hc
        exact h00 (by simpa [prevOf] using hc)
      have htl : ∀ j, j < tl.length →
          ¬ (cfg.min_iter_convergence ≤ (s.iters + 1) + j + 1 ∧
             relChangeBelow cfg.omega_gamma (prevOf hd tl j) (tl.getD j 0) = true) := by
        intro j hj hc
        refine h (j + 1) (by simpa using Nat.succ_lt_succ hj) ?_
        refine ⟨by omega, ?_⟩
        rw [prevOf_cons, List.getD_cons_succ]
        exact hc.2
      show schedRun cfg (schedStep cfg s h0 hd) hd tl = _
      have harith : s.iters + 1 + tl.length = s.iters + (tl.length + 1) := by omega
      rw [hstep, ih _ _ htl, List.length_cons, harith]

theorem schedRun_append (cfg : SchedCfg) (s : SchedState) (h0 : ℚ) (l1 l2 : List ℚ) :
    schedRun cfg s h0 (l1 ++ l2) =
      schedRun cfg (schedRun cfg s h0 l1) (l1.getLastD h0) l2 := by
  induction l1 generalizing s h0 with
  | nil => rfl
  | cons hd tl ih =>
      show schedRun cfg (schedStep cfg s h0 hd) hd (tl ++ l2) = _
      rw [ih, List.getLastD_cons]
      rfl

theorem getLastD_take_prevOf (h0 : ℚ) (hs : List ℚ) (k : ℕ) (hk : k ≤ hs.length) :
    (hs.take k).getLastD h0 = prevOf h0 hs k := by
  induction hs generalizing k h0 with
  | nil =>
      have hk0 : k = 0 := Nat.le_zero.mp (by simpa using hk)
      subst hk0
      rfl
  | cons hd tl ih =>
      rcases k with _ | k
      · rfl
      · rw [List.take_succ_cons, List.getLastD_cons, ih hd k (by simpa using hk),
          prevOf_cons]

theorem take_succ_getD (hs : List ℚ) (k : ℕ) (hk : k < hs.length) :
    hs.take (k + 1) = hs.take k ++ [hs.getD k 0] := by
  rw [List.take_succ, List.getElem?_eq_getElem hk]
  rw [List.getD_eq_getElem _ _ hk]
  rfl

theorem schedRun_tighten (cfg : SchedCfg) (s0 : SchedState) (h0 : ℚ) (hs : List ℚ)
    (k : ℕ) (hiters : s0.iters = 0) (hk : k < hs.length)
    (hnc : ∀ j, j < k → ¬ critAt cfg.omega_gamma cfg.min_iter_convergence h0 hs j)
    (hc : critAt cfg.omega_gamma cfg.min_iter_convergence h0 hs k) :
    (∀ j, j ≤ k → (schedRun cfg s0 h0 (hs.take j)).mu = s0.mu) ∧
    (schedRun cfg s0 h0 (hs.take (k + 1))).mu = s0.mu * cfg.mu_mult_factor ∧
    (schedRun cfg s0 h0 (hs.take (k + 1))).iters = 0 ∧
    (schedRun cfg s0 h0 (hs.take (k + 1))).h_ref = hs.getD k 0 := by
  have hrunj : ∀ j, j ≤ k →
      schedRun cfg s0 h0 (hs.take j) = { s0 with iters := s0.iters + j } := by
    intro j hj
    have hlt : (hs.take j).length = j := by rw [List.length_take]; omega
    have hno : ∀ i, i < (hs.take j).length →
        ¬ (cfg.min_iter_convergence ≤ s0.iters + i + 1 ∧
           relChangeBelow cfg.omega_gamma (prevOf h0 (hs.take j) i)
             ((hs.take j).getD i 0) = true) := by
      intro i hi hcon
      have hij : i < j := by omega
      have hil : i < hs.length := by omega
      refine hnc i (by omega) ?_
      refine ⟨by omega, ?_⟩
      rw [← prevOf_take_eq h0 hs j i hij hil, ← getD_take_eq hs j i hij hil]
      exact hcon.2
    rw [schedRun_no_crit cfg s0 h0 (hs.take j) hno, hlt]
  have hfinal : schedRun cfg s0 h0 (hs.take (k + 1)) =
      { mu := s0.mu * cfg.mu_mult_factor, h_ref := hs.getD k 0, iters := 0,
        suff_decrease := decide (hs.getD k 0 ≤ cfg.omega_mu * s0.h_ref) } := by
    rw [take_succ_getD hs k hk, schedRun_append, getLastD_take_prevOf h0 hs k hk.le,
      hrunj k le_rfl]
    show schedStep cfg { s0 with iters := s0.iters + k } (prevOf h0 hs k)
        (hs.getD k 0) = _
    unfold schedStep
    have hc1 := hc.1
    have hcond : cfg.min_iter_convergence ≤
        ({ s0 with iters := s0.iters + k } : SchedState).iters + 1 ∧
        relChangeBelow cfg.omega_gamma (prevOf h0 hs k) (hs.getD k 0) = true :=
      ⟨by show cfg.min_iter_convergence ≤ s0.iters + k + 1; omega, hc.2⟩
    rw [if_pos hcond]
  exact ⟨fun j hj => by rw [hrunj j hj], by rw [hfinal], by rw [hfinal],
    by rw [hfinal]⟩

/-- Claim C5: on a strictly decreasing violation sequence whose relative
change first meets the `omega_gamma` criterion at position `k` (at least
`min_iter_convergence` iterations after the last tightening), the
scheduler multiplies `mu` by exactly `mu_mult_factor` at `k` and at no
earlier position, independently of the `omega_mu` sufficient-decrease
comparison, and it resets the iteration counter and records the new
reference value. -/
theorem C5_scheduler_tightens_exactly (cfg : SchedCfg) (s0 : SchedState) (h0 : ℚ)
    (hs : List ℚ) (k : ℕ) (hiters : s0.iters = 0) (hk : k < hs.length)
    (_hdec : ∀ j, j < hs.length → hs.getD j 0 < prevOf h0 hs j)
    (hnc : ∀ j, j < k → ¬ critAt cfg.omega_gamma cfg.min_iter_convergence h0 hs j)
    (hc : critAt cfg.omega_gamma cfg.min_iter_convergence h0 hs k) :
    (∀ j, j ≤ k → (schedRun cfg s0 h0 (hs.take j)).mu = s0.mu) ∧
    (schedRun cfg s0 h0 (hs.take (k + 1))).mu = s0.mu * cfg.mu_mult_factor ∧
    (schedRun cfg s0 h0 (hs.take (k + 1))).iters = 0 ∧
    (schedRun cfg s0 h0 (hs.take (k + 1))).h_ref = hs.getD k 0 ∧
    (∀ w : ℚ,
      (schedRun { cfg with omega_mu := w } s0 h0 (hs.take (k + 1))).mu =
        s0.mu * cfg.mu_mult_factor) := by
  obtain ⟨c1, c2, c3, c4⟩ := schedRun_tighten cfg s0 h0 hs k hiters hk hnc hc
  refine ⟨c1, c2, c3, c4, fun w => ?_⟩
  exact (schedRun_tighten { cfg with omega_mu := w } s0 h0 hs k hiters hk hnc hc).2.1

/-- Witness for C5 at the concrete configuration `cSchedCfg`, start state
`cSchedState`, initial violation 8 and sequence `[4, 39/10]`: no
tightening after the first value, tightening by exactly the factor 2 after
the second, with the counter reset. -/
theorem C5_scheduler_tightens_exactly_witness :
    (schedRun cSchedCfg cSchedState 8 (cHs.take 1)).mu = cSchedState.mu ∧
    (schedRun cSchedCfg cSchedState 8 (cHs.take 2)).mu =
      cSchedState.mu * cSchedCfg.mu_mult_factor ∧
    (schedRun cSchedCfg cSchedState 8 (cHs.take 2)).iters = 0 := by
  have habs1 : |(39 : ℚ)/10 - 4| = 1/10 := by
    rw [abs_sub_comm, abs_of_nonneg] <;> norm_num
  have habs2 : |(4 : ℚ)| = 4 := abs_of_nonneg (by norm_num)
  have habs3 : |(1 : ℚ)/10| = 1/10 := abs_of_nonneg (by norm_num)
  have hdec : ∀ j, j < cHs.length → cHs.getD j 0 < prevOf 8 cHs j := by
    intro j hj
    have hj2 : j < 2 := by simpa [cHs] using hj
    interval_cases j <;> norm_num [cHs, prevOf]
  have hnc : ∀ j, j < 1 →
      ¬ critAt cSchedCfg.omega_gamma cSchedCfg.min_iter_convergence 8 cHs j := by
    intro j hj hcon
    have hj0 : j = 0 := by omega
    subst hj0
    have := hcon.1
    simp [cSchedCfg] at this
  have hc : critAt cSchedCfg.omega_gamma cSchedCfg.min_iter_convergence 8 cHs 1 := by
    refine ⟨by norm_num [cSchedCfg], ?_⟩
    rw [relChangeBelow, decide_eq_true_eq]
    norm_num [cHs, prevOf, cSchedCfg, habs1, habs2, habs3]
  obtain ⟨c1, c2, c3, -, -⟩ :=
    C5_scheduler_tightens_exactly cSchedCfg cSchedState 8 cHs 1 rfl (by decide)
      hdec hnc hc
  exact ⟨c1 1 le_rfl, c2, c3⟩

end ClimateSet
